import Mathlib

/-!
Shallow embedding of the Plinko statistics engine of
`src/backend/api/game_stats.py`, together with a verification of its
documented behaviour.  Numeric values are modelled as exact rationals:
every decimal literal appearing in the source is embedded as the exact
rational it denotes, and each theorem below concerns quantities whose
floating-point evaluation in the source agrees with the exact rational
evaluation (sums, comparisons and roundings of decimally-representable
values).
-/

namespace Plinko

open scoped List

/-- Python `round()` to the nearest integer, halves to even. -/
def pyRoundInt (x : ℚ) : ℤ :=
  if x - ⌊x⌋ = (1 : ℚ) / 2 then
    (if ⌊x⌋ % 2 = 0 then ⌊x⌋ else ⌊x⌋ + 1)
  else ⌊x + 1 / 2⌋

/-- Python `round(x, d)` to `d` decimal places. -/
def pyRound (x : ℚ) (d : ℕ) : ℚ := (pyRoundInt (x * 10 ^ d) : ℚ) / 10 ^ d

/-- Python `int()` conversion: truncation toward zero. -/
def pyTrunc (x : ℚ) : ℤ := if 0 ≤ x then ⌊x⌋ else ⌈x⌉

/-- Python `max()` over a nonempty list. -/
def pyMax (l : List ℚ) : ℚ := l.foldl max (l.headD 0)

/-- `statistics.mean`: sum divided by length. -/
def pyMean (l : List ℚ) : ℚ := l.sum / l.length

/-- `statistics.median`: middle of the ascending sort, or the average of
the two middle elements for an even length. -/
def pyMedian (l : List ℚ) : ℚ :=
  let s := l.mergeSort (fun a b => decide (a ≤ b))
  if s.length % 2 = 1 then s.getD (s.length / 2) 0
  else (s.getD (s.length / 2 - 1) 0 + s.getD (s.length / 2) 0) / 2

/-! ### Configuration tables (`PLINKO_SLOTS`, `THEORETICAL_DISTRIBUTION`) -/

/-- `PLINKO_SLOTS["low"]`, slot `i` at position `i`. -/
def lowMults : List ℚ :=
  [0.5, 0.5, 0.5, 0.7, 0.7, 1.0, 1.0, 1.4,
   1.4, 1.0, 1.0, 0.7, 0.7, 0.5, 0.5, 0.5]

/-- `PLINKO_SLOTS["medium"]`, slot `i` at position `i`. -/
def mediumMults : List ℚ :=
  [0.3, 0.4, 0.5, 0.7, 1.0, 1.5, 2.0, 9.0,
   9.0, 2.0, 1.5, 1.0, 0.7, 0.5, 0.4, 0.3]

/-- `PLINKO_SLOTS["high"]`, slot `i` at position `i`. -/
def highMults : List ℚ :=
  [0.2, 0.2, 0.3, 0.5, 1.0, 2.0, 7.0, 110.0,
   110.0, 7.0, 2.0, 1.0, 0.5, 0.3, 0.2, 0.2]

/-- The `PLINKO_SLOTS` dict: `none` models a missing key, so that
`PLINKO_SLOTS.get(risk_level, default)` becomes `(PLINKO_SLOTS rl).getD default`. -/
def PLINKO_SLOTS (rl : String) : Option (List ℚ) :=
  if rl = "low" then some lowMults
  else if rl = "medium" then some mediumMults
  else if rl = "high" then some highMults
  else none

/-- `THEORETICAL_DISTRIBUTION`, slot `i` at position `i`. -/
def THEORETICAL_DISTRIBUTION : List ℚ :=
  [0.003, 0.018, 0.054, 0.108, 0.162, 0.194, 0.194, 0.162,
   0.162, 0.194, 0.194, 0.162, 0.108, 0.054, 0.018, 0.003]

/-- `THEORETICAL_DISTRIBUTION.get(slot_id, 0.0625)`. -/
def theoPMF (i : ℕ) : ℚ := THEORETICAL_DISTRIBUTION.getD i 0.0625

/-- `slot_mults.get(slot_id, 1.0)`. -/
def multOfSlot (slot_mults : List ℚ) (i : ℕ) : ℚ := slot_mults.getD i 1.0

/-! ### Outcome records

A drop record is a loosely-typed dict in the source; the analyzers read
the keys `slot`, `landing_slot`, `multiplier` and `created_at`, each of
which may be absent (`none`). -/

structure Drop where
  slot : Option ℤ := none
  landing_slot : Option ℤ := none
  multiplier : Option ℚ := none
  created_at : Option ℕ := none
deriving DecidableEq

instance : Inhabited Drop := ⟨{}⟩

/-- `drop.get('slot', drop.get('landing_slot', 7))`. -/
def getSlot (d : Drop) : ℤ := d.slot.getD (d.landing_slot.getD 7)

/-- `drop.get('multiplier', 1.0)`. -/
def getMult (d : Drop) : ℚ := d.multiplier.getD 1.0

/-- The guard `0 <= slot < 16` of the counting loops. -/
abbrev slotInRange (d : Drop) : Prop := 0 ≤ getSlot d ∧ getSlot d < 16

/-! ### `analyze_slot_distribution` -/

/-- Net effect of the counting loop of `analyze_slot_distribution` (and of
the identical loop of `analyze_fairness`): `slot_counts[i]` is the number
of drops whose effective slot is `i`, counted only when the guard
`0 <= slot < 16` holds. -/
def slotCounts (drops : List Drop) (i : ℕ) : ℕ :=
  drops.countP (fun d => decide (slotInRange d ∧ getSlot d = (i : ℤ)))

/-- The `multipliers` list accumulated by the loop. -/
def multList (drops : List Drop) : List ℚ := drops.map getMult

/-- `slot_counts.items()` in dict key order `0..15`. -/
def slotItems (drops : List Drop) : List (ℕ × ℕ) :=
  (List.range 16).map (fun i => (i, slotCounts drops i))

/-- Comparison underlying `sorted(..., key=lambda x: x[1], reverse=True)`:
a stable sort that puts higher counts first.  `a` may stay before `b`
exactly when the count of `b` does not exceed the count of `a`. -/
def countDescLE (a b : ℕ × ℕ) : Bool := decide (b.2 ≤ a.2)

/-- `sorted(slot_counts.items(), key=lambda x: x[1], reverse=True)`. -/
def sortedSlots (drops : List Drop) : List (ℕ × ℕ) :=
  (slotItems drops).mergeSort countDescLE

/-- `sorted_slots[0][0]`. -/
def mostHit (drops : List Drop) : ℕ := ((sortedSlots drops).headD (0, 0)).1

/-- `sorted_slots[-1][0]`. -/
def leastHit (drops : List Drop) : ℕ := ((sortedSlots drops).getLastD (0, 0)).1

/-- `edge_slots = [0, 1, 2, 13, 14, 15]`; sum of their counts. -/
def edgeCount (drops : List Drop) : ℕ :=
  (([0, 1, 2, 13, 14, 15] : List ℕ).map (slotCounts drops)).sum

/-- `center_slots = [6, 7, 8, 9]`; sum of their counts. -/
def centerCount (drops : List Drop) : ℕ :=
  (([6, 7, 8, 9] : List ℕ).map (slotCounts drops)).sum

/-- `slot_counts[7] + slot_counts[8]`. -/
def jackpotCount (drops : List Drop) : ℕ :=
  slotCounts drops 7 + slotCounts drops 8

structure SlotStats where
  slot_id : ℕ
  multiplier : ℚ
  hit_count : ℕ
  percentage : ℚ
  theoretical_percentage : ℚ
  deviation : ℚ
deriving DecidableEq

structure SlotDistribution where
  total_drops : ℕ
  risk_level : String
  slots : List SlotStats
  most_hit_slot : ℕ
  least_hit_slot : ℕ
  avg_multiplier : ℚ
  edge_rate : ℚ
  center_rate : ℚ
  jackpot_rate : ℚ
deriving DecidableEq

/-- One entry of the `slots` list built per `slot_id in range(16)`. -/
def mkSlotStats (drops : List Drop) (slot_mults : List ℚ) (n : ℕ) (i : ℕ) :
    SlotStats :=
  let count := slotCounts drops i
  let pct : ℚ := if 0 < n then (count : ℚ) / n * 100 else 0
  let theo_pct : ℚ := theoPMF i * 100
  { slot_id := i
    multiplier := multOfSlot slot_mults i
    hit_count := count
    percentage := pyRound pct 2
    theoretical_percentage := pyRound theo_pct 2
    deviation := pyRound (pct - theo_pct) 2 }

/-- `PlinkoCalculator.analyze_slot_distribution`. -/
def analyze_slot_distribution (drops : List Drop) (risk_level : String) :
    SlotDistribution :=
  if drops = [] then
    { total_drops := 0
      risk_level := risk_level
      slots := []
      most_hit_slot := 7
      least_hit_slot := 0
      avg_multiplier := 1.0
      edge_rate := 0
      center_rate := 0
      jackpot_rate := 0 }
  else
    let n := drops.length
    let slot_mults := (PLINKO_SLOTS risk_level).getD mediumMults
    let multipliers := multList drops
    let edge_rate : ℚ := if 0 < n then (edgeCount drops : ℚ) / n * 100 else 0
    let center_rate : ℚ := if 0 < n then (centerCount drops : ℚ) / n * 100 else 0
    let jackpot_rate : ℚ := if 0 < n then (jackpotCount drops : ℚ) / n * 100 else 0
    { total_drops := n
      risk_level := risk_level
      slots := (List.range 16).map (mkSlotStats drops slot_mults n)
      most_hit_slot := mostHit drops
      least_hit_slot := leastHit drops
      avg_multiplier :=
        if multipliers = [] then 1.0 else pyRound (pyMean multipliers) 4
      edge_rate := pyRound edge_rate 2
      center_rate := pyRound center_rate 2
      jackpot_rate := pyRound jackpot_rate 4 }

/-! ### `compare_risk_levels` -/

structure RiskLevelComparison where
  risk_level : String
  total_drops : ℕ
  avg_multiplier : ℚ
  median_multiplier : ℚ
  -- `std_deviation` (a floating-point square root) is not modelled: it is
  -- irrational in general and no verified property concerns it.
  rtp_actual : ℚ
  rtp_theoretical : ℚ := 99.0
  loss_rate : ℚ
  small_win_rate : ℚ
  medium_win_rate : ℚ
  big_win_rate : ℚ
  jackpot_rate : ℚ
  max_multiplier : ℚ
deriving DecidableEq

/-- `sum(1 for m in multipliers if m < 1.0) / n * 100`, before rounding. -/
def lossRate (ms : List ℚ) : ℚ := (ms.countP (fun m => decide (m < 1))) / ms.length * 100

/-- `sum(1 for m in multipliers if 1.0 <= m < 2.0) / n * 100`, before rounding. -/
def smallWinRate (ms : List ℚ) : ℚ :=
  (ms.countP (fun m => decide (1 ≤ m ∧ m < 2))) / ms.length * 100

/-- `sum(1 for m in multipliers if 2.0 <= m < 10.0) / n * 100`, before rounding. -/
def mediumWinRate (ms : List ℚ) : ℚ :=
  (ms.countP (fun m => decide (2 ≤ m ∧ m < 10))) / ms.length * 100

/-- `sum(1 for m in multipliers if m >= 10.0) / n * 100`, before rounding. -/
def bigWinRate (ms : List ℚ) : ℚ :=
  (ms.countP (fun m => decide (10 ≤ m))) / ms.length * 100

/-- Loop body of `compare_risk_levels` for one risk level with a nonempty
drop list. -/
def riskLevelComparison (risk_level : String) (drops : List Drop) :
    RiskLevelComparison :=
  let multipliers := multList drops
  let n := multipliers.length
  let slot_mults := (PLINKO_SLOTS risk_level).getD mediumMults
  let max_mult := pyMax slot_mults
  let jackpot : ℚ := (multipliers.countP (fun m => decide (max_mult ≤ m))) / n * 100
  let avg_mult := pyMean multipliers
  { risk_level := risk_level
    total_drops := n
    avg_multiplier := pyRound avg_mult 4
    median_multiplier := pyRound (pyMedian multipliers) 4
    rtp_actual := pyRound (avg_mult * 100) 2
    loss_rate := pyRound (lossRate multipliers) 2
    small_win_rate := pyRound (smallWinRate multipliers) 2
    medium_win_rate := pyRound (mediumWinRate multipliers) 2
    big_win_rate := pyRound (bigWinRate multipliers) 2
    jackpot_rate := pyRound jackpot 4
    max_multiplier := max_mult }

/-- `PlinkoCalculator.compare_risk_levels`: iterate over the mapping in
order, skipping empty drop lists. -/
def compare_risk_levels (all_drops : List (String × List Drop)) :
    List RiskLevelComparison :=
  all_drops.filterMap (fun p =>
    if p.2 = [] then none else some (riskLevelComparison p.1 p.2))

/-! ### `analyze_fairness` -/

structure SlotComparison where
  slot : ℕ
  observed : ℕ
  expected : ℚ
  actual_pct : ℚ
  theoretical_pct : ℚ
  deviation : ℚ
deriving DecidableEq

structure TheoreticalVsActual where
  risk_level : String
  chi_square_score : ℚ
  deviation_score : ℚ
  is_fair : Bool
  slot_comparisons : List SlotComparison
  overperforming_slots : List ℕ
  underperforming_slots : List ℕ
deriving DecidableEq

/-- Unrounded deviation of slot `i`: `observed/n*100 - pmf[i]*100`. -/
def slotDeviation (drops : List Drop) (n : ℕ) (i : ℕ) : ℚ :=
  (slotCounts drops i : ℚ) / n * 100 - theoPMF i * 100

/-- One entry of the `comparisons` list of `analyze_fairness`. -/
def mkSlotComparison (drops : List Drop) (n : ℕ) (i : ℕ) : SlotComparison :=
  { slot := i
    observed := slotCounts drops i
    expected := pyRound (theoPMF i * n) 2
    actual_pct := pyRound ((slotCounts drops i : ℚ) / n * 100) 2
    theoretical_pct := pyRound (theoPMF i * 100) 2
    deviation := pyRound (slotDeviation drops n i) 2 }

/-- The chi-square accumulation: slots with `expected <= 0` contribute
nothing. -/
def chiSquare (drops : List Drop) (n : ℕ) : ℚ :=
  ((List.range 16).map (fun i =>
    let expected := theoPMF i * n
    if 0 < expected then ((slotCounts drops i : ℚ) - expected) ^ 2 / expected
    else 0)).sum

/-- `PlinkoCalculator.analyze_fairness`. -/
def analyze_fairness (drops : List Drop) (risk_level : String) :
    TheoreticalVsActual :=
  let n := drops.length
  if n = 0 then
    { risk_level := risk_level
      chi_square_score := 0
      deviation_score := 0
      is_fair := true
      slot_comparisons := []
      overperforming_slots := []
      underperforming_slots := [] }
  else
    let comparisons := (List.range 16).map (mkSlotComparison drops n)
    -- the over/under tests use the UNrounded deviation, while
    -- `deviation_score` sums the ROUNDED deviations stored in `comparisons`
    let overperforming := (List.range 16).filter
      (fun i => decide (1 < slotDeviation drops n i))
    let underperforming := (List.range 16).filter
      (fun i => decide (¬ 1 < slotDeviation drops n i ∧ slotDeviation drops n i < -1))
    let total_deviation := (comparisons.map (fun c => |c.deviation|)).sum
    let deviation_score := min (total_deviation / 100) 1.0
    { risk_level := risk_level
      chi_square_score := pyRound (chiSquare drops n) 4
      deviation_score := pyRound deviation_score 4
      is_fair := decide (chiSquare drops n < 25)
      slot_comparisons := comparisons
      overperforming_slots := overperforming
      underperforming_slots := underperforming }

/-! ### `track_jackpots` -/

structure JackpotTracker where
  total_jackpots : ℕ
  last_jackpot_time : Option ℕ := none
  drops_since_jackpot : ℕ
  average_drops_between : Option ℚ := none
  jackpot_probability : ℚ
  current_drought : Bool
deriving DecidableEq

/-- Positions (in input order) whose multiplier reaches `max_mult`. -/
def jackpotIndices (drops : List Drop) (max_mult : ℚ) : List ℕ :=
  ((drops.enum.filter (fun p => decide (max_mult ≤ getMult p.2))).map Prod.fst)

/-- The consecutive gaps `jackpot_indices[i] - jackpot_indices[i+1]`. -/
def jackpotGaps (idx : List ℕ) : List ℚ :=
  (List.range (idx.length - 1)).map
    (fun i => (idx.getD i 0 : ℚ) - (idx.getD (i + 1) 0 : ℚ))

/-- `PlinkoCalculator.track_jackpots`.  Note the fallback table for an
unknown risk level is the HIGH table here, unlike the other two lookups. -/
def track_jackpots (drops : List Drop) (risk_level : String) : JackpotTracker :=
  let slot_mults := (PLINKO_SLOTS risk_level).getD highMults
  let max_mult := pyMax slot_mults
  let idx := jackpotIndices drops max_mult
  let total := idx.length
  let drops_since := idx.headD drops.length
  let last_time : Option ℕ :=
    match idx.head? with
    | none => none
    | some j => (drops.getD j default).created_at
  let avg_between : Option ℚ :=
    if 1 < idx.length then some (pyMean (jackpotGaps idx)) else none
  let theo_prob : ℚ := 0.3
  let expected_drops : ℤ := pyTrunc (100 / theo_prob)
  let drought : Bool := decide ((expected_drops : ℚ) * 1.5 < (drops_since : ℚ))
  { total_jackpots := total
    last_jackpot_time := last_time
    drops_since_jackpot := drops_since
    average_drops_between :=
      -- `round(avg_between, 1) if avg_between else None`: Python truthiness
      -- also maps a zero mean to None
      match avg_between with
      | none => none
      | some a => if a = 0 then none else some (pyRound a 1)
    jackpot_probability := theo_prob
    current_drought := drought }

/-! ### Concrete evaluation inputs -/

def c1drops : List Drop :=
  [{ slot := some 20, multiplier := some 2 }, { slot := some 3, multiplier := some 1 }]

def c2drop : Drop := { multiplier := some 1 }

def mult9Drop : Drop := { multiplier := some 9 }

def c6drops : List Drop :=
  [{ multiplier := some 0.5 }, { multiplier := some 1.5 },
   { multiplier := some 5 }, { multiplier := some 20 }]

def c7drops : List Drop :=
  [{ multiplier := some 1 }, { multiplier := some 110 }, { multiplier := some 110 }]

def c9drops : List Drop :=
  [{ multiplier := some 110 }, { multiplier := some 110 },
   { multiplier := some 110 }, { multiplier := some 1 },
   { multiplier := some 1 }, { multiplier := some 110 }]

def c4drops : List Drop :=
  [{ slot := some 5 }, { slot := some 3 },
   { slot := some 5, multiplier := some 2 },
   { slot := some 3, multiplier := some 2 }]

/-! ## Verification -/

lemma sum_slotCounts (drops : List Drop) :
    ∑ i ∈ Finset.range 16, slotCounts drops i =
      drops.countP (fun d => decide (slotInRange d)) := by
  induction drops with
  | nil => simp [slotCounts]
  | cons d t ih =>
    have hstep : ∀ i : ℕ, slotCounts (d :: t) i =
        slotCounts t i + if slotInRange d ∧ getSlot d = (i : ℤ) then 1 else 0 := by
      intro i
      simp [slotCounts, List.countP_cons]
    have hq : (d :: t).countP (fun d => decide (slotInRange d)) =
        t.countP (fun d => decide (slotInRange d)) +
          if slotInRange d then 1 else 0 := by
      simp [List.countP_cons]
    have hind : (∑ i ∈ Finset.range 16,
        if slotInRange d ∧ getSlot d = (i : ℤ) then (1 : ℕ) else 0) =
        if slotInRange d then 1 else 0 := by
      by_cases h : slotInRange d
      · have h0 := h.1
        have h16 := h.2
        have hs : (getSlot d).toNat < 16 := by omega
        have hcongr : ∀ i ∈ Finset.range 16,
            (if slotInRange d ∧ getSlot d = (i : ℤ) then (1 : ℕ) else 0) =
            (if i = (getSlot d).toNat then (1 : ℕ) else 0) := by
          intro i _
          refine if_congr ?_ rfl rfl
          constructor
          · rintro ⟨-, he⟩; omega
          · rintro rfl; exact ⟨h, by omega⟩
        rw [Finset.sum_congr rfl hcongr, Finset.sum_ite_eq' (Finset.range 16)]
        simp only [Finset.mem_range, hs, if_true, if_pos h]
      · simp [h]
    simp only [hstep, hq]
    rw [Finset.sum_add_distrib, ih, hind]

/-- C1: an out-of-range landing slot is dropped from every per-slot hit
count, while its multiplier still enters the average and the outcome still
counts in the denominator `n = total_drops`; hence the sixteen hit counts
sum to at most `n`, with equality exactly when every slot is in range. -/
theorem clipped_histogram_sum (drops : List Drop) (rl : String)
    (h : drops ≠ []) :
    (analyze_slot_distribution drops rl).total_drops = drops.length ∧
    (analyze_slot_distribution drops rl).avg_multiplier =
      pyRound (pyMean (multList drops)) 4 ∧
    (∀ d : Drop, ¬ slotInRange d →
      ∀ i : ℕ, slotCounts (d :: drops) i = slotCounts drops i) ∧
    (∑ i ∈ Finset.range 16, slotCounts drops i) ≤ drops.length ∧
    ((∑ i ∈ Finset.range 16, slotCounts drops i) = drops.length ↔
      ∀ d ∈ drops, slotInRange d) := by
  have hm : multList drops ≠ [] := by simpa [multList] using h
  refine ⟨?_, ?_, ?_, ?_, ?_⟩
  · simp [analyze_slot_distribution, h]
  · simp [analyze_slot_distribution, h, hm]
  · intro d hd i
    simp [slotCounts, List.countP_cons, hd]
  · rw [sum_slotCounts]
    exact List.countP_le_length _
  · rw [sum_slotCounts, List.countP_eq_length]
    simp

theorem clipped_histogram_sum_witness :
    c1drops ≠ [] ∧
    ((analyze_slot_distribution c1drops "medium").total_drops = c1drops.length ∧
    (analyze_slot_distribution c1drops "medium").avg_multiplier =
      pyRound (pyMean (multList c1drops)) 4 ∧
    (∀ d : Drop, ¬ slotInRange d →
      ∀ i : ℕ, slotCounts (d :: c1drops) i = slotCounts c1drops i) ∧
    (∑ i ∈ Finset.range 16, slotCounts c1drops i) ≤ c1drops.length ∧
    ((∑ i ∈ Finset.range 16, slotCounts c1drops i) = c1drops.length ↔
      ∀ d ∈ c1drops, slotInRange d)) :=
  ⟨by simp [c1drops], clipped_histogram_sum c1drops "medium" (by simp [c1drops])⟩

/-- C5: on an empty outcome window both `analyze_slot_distribution` and
`analyze_fairness` return exactly their documented neutral defaults. -/
theorem empty_window_defaults (rl : String) :
    analyze_slot_distribution [] rl =
      { total_drops := 0, risk_level := rl, slots := [], most_hit_slot := 7,
        least_hit_slot := 0, avg_multiplier := 1.0, edge_rate := 0,
        center_rate := 0, jackpot_rate := 0 } ∧
    analyze_fairness [] rl =
      { risk_level := rl, chi_square_score := 0, deviation_score := 0,
        is_fair := true, slot_comparisons := [], overperforming_slots := [],
        underperforming_slots := [] } :=
  ⟨rfl, rfl⟩

/-- C8: on an empty outcome window `track_jackpots` returns zero jackpots,
no timestamp, `drops_since_jackpot = 0`, no average gap, and no drought. -/
theorem track_jackpots_empty (rl : String) :
    track_jackpots [] rl =
      { total_jackpots := 0, last_jackpot_time := none,
        drops_since_jackpot := 0, average_drops_between := none,
        jackpot_probability := 0.3, current_drought := false } := by
  have hT : pyTrunc ((100 : ℚ) / 0.3) = 333 := by
    rw [pyTrunc, if_pos (by norm_num), Int.floor_eq_iff]
    norm_num
  unfold track_jackpots jackpotIndices
  simp only [List.enum_nil, List.filter_nil, List.map_nil, List.length_nil,
    List.headD_nil, List.head?_nil, JackpotTracker.mk.injEq, hT]
  norm_num [decide_eq_false_iff_not]

lemma pyTrunc_100_div_03 : pyTrunc ((100 : ℚ) / 0.3) = 333 := by
  rw [pyTrunc, if_pos (by norm_num), Int.floor_eq_iff]
  norm_num

lemma pyMax_highMults : pyMax highMults = 110 := by
  norm_num [pyMax, highMults, List.foldl]

lemma pyMax_mediumMults : pyMax mediumMults = 9 := by
  norm_num [pyMax, mediumMults, List.foldl]

lemma snd_mem_of_mem_enumFrom {α : Type} {x : ℕ × α} :
    ∀ {n : ℕ} {l : List α}, x ∈ List.enumFrom n l → x.2 ∈ l := by
  intro n l
  induction l generalizing n with
  | nil => intro h; simp at h
  | cons a t ih =>
    intro h
    rw [List.enumFrom_cons] at h
    rcases List.mem_cons.mp h with rfl | h
    · simp
    · exact List.mem_cons_of_mem _ (ih h)

lemma jackpotIndices_eq_nil {drops : List Drop} {m : ℚ}
    (h : ∀ d ∈ drops, ¬ m ≤ getMult d) : jackpotIndices drops m = [] := by
  unfold jackpotIndices
  have : (List.enum drops).filter (fun p => decide (m ≤ getMult p.2)) = [] := by
    rw [List.filter_eq_nil_iff]
    intro x hx
    simpa using h x.2 (snd_mem_of_mem_enumFrom hx)
  rw [this, List.map_nil]

/-- C2 (amended): the drought flag compares `drops_since_jackpot` against
`1.5 * int(100 / 0.3) = 1.5 * 333 = 499.5` — the truncation happens before
the multiplication — so a 500-drop jackpot-free high-risk window yields
`current_drought = true`, not `false`. -/
theorem drought_threshold (drops : List Drop) (rl : String) :
    (track_jackpots drops rl).current_drought = true ↔
      (499.5 : ℚ) < ((track_jackpots drops rl).drops_since_jackpot : ℚ) := by
  have hd : (track_jackpots drops rl).current_drought =
      decide ((pyTrunc ((100 : ℚ) / 0.3) : ℚ) * 1.5 <
        ((track_jackpots drops rl).drops_since_jackpot : ℚ)) := rfl
  rw [hd, pyTrunc_100_div_03,
    show ((333 : ℤ) : ℚ) * 1.5 = 499.5 by norm_num]
  exact decide_eq_true_iff

/-- C2 (counterexample): on a 500-outcome window with no jackpot,
`drops_since_jackpot = 500` and `current_drought` comes out `true`,
refuting the claimed `false` at the claimed boundary. -/
theorem drought_at_500_counterexample :
    (track_jackpots (List.replicate 500 c2drop) "high").drops_since_jackpot = 500 ∧
    (track_jackpots (List.replicate 500 c2drop) "high").current_drought = true := by
  have hno : ∀ d ∈ List.replicate 500 c2drop,
      ¬ (pyMax ((PLINKO_SLOTS "high").getD highMults) ≤ getMult d) := by
    intro d hd
    rw [List.eq_of_mem_replicate hd,
      show (PLINKO_SLOTS "high").getD highMults = highMults from rfl,
      pyMax_highMults]
    norm_num [getMult, c2drop]
  have hidx : jackpotIndices (List.replicate 500 c2drop)
      (pyMax ((PLINKO_SLOTS "high").getD highMults)) = [] := jackpotIndices_eq_nil hno
  have hsince : (track_jackpots (List.replicate 500 c2drop) "high").drops_since_jackpot =
      (jackpotIndices (List.replicate 500 c2drop)
        (pyMax ((PLINKO_SLOTS "high").getD highMults))).headD
        (List.replicate 500 c2drop).length := rfl
  have hval : (track_jackpots (List.replicate 500 c2drop) "high").drops_since_jackpot
      = 500 := by
    rw [hsince, hidx, List.headD_nil, List.length_replicate]
  refine ⟨hval, ?_⟩
  have hd : (track_jackpots (List.replicate 500 c2drop) "high").current_drought =
      decide ((pyTrunc ((100 : ℚ) / 0.3) : ℚ) * 1.5 <
        ((track_jackpots (List.replicate 500 c2drop) "high").drops_since_jackpot : ℚ)) :=
    rfl
  rw [hd, pyTrunc_100_div_03, hval, decide_eq_true_eq]
  norm_num

lemma PLINKO_SLOTS_unknown {rl : String} (h1 : rl ≠ "low") (h2 : rl ≠ "medium")
    (h3 : rl ≠ "high") : PLINKO_SLOTS rl = none := by
  simp [PLINKO_SLOTS, h1, h2, h3]

/-- C3 (amended): an unrecognized risk level falls back to the medium
multiplier table in `analyze_slot_distribution` and `compare_risk_levels`,
but `track_jackpots` falls back to the HIGH table instead. -/
theorem unknown_risk_fallback (rl : String) (drops : List Drop)
    (h1 : rl ≠ "low") (h2 : rl ≠ "medium") (h3 : rl ≠ "high") :
    analyze_slot_distribution drops rl =
      { analyze_slot_distribution drops "medium" with risk_level := rl } ∧
    riskLevelComparison rl drops =
      { riskLevelComparison "medium" drops with risk_level := rl } ∧
    track_jackpots drops rl = track_jackpots drops "high" := by
  have hs : PLINKO_SLOTS rl = none := PLINKO_SLOTS_unknown h1 h2 h3
  have hm : (PLINKO_SLOTS rl).getD mediumMults =
      (PLINKO_SLOTS "medium").getD mediumMults := by rw [hs]; rfl
  have hh : (PLINKO_SLOTS rl).getD highMults =
      (PLINKO_SLOTS "high").getD highMults := by rw [hs]; rfl
  refine ⟨?_, ?_, ?_⟩
  · unfold analyze_slot_distribution
    rw [hm]
    by_cases hd : drops = [] <;> simp [hd]
  · unfold riskLevelComparison
    rw [hm]
  · unfold track_jackpots
    rw [hh]

/-- C3 (counterexample): with a single 9x outcome and the unrecognized risk
level "turbo", `track_jackpots` reports 0 jackpots although the claimed
medium-table fallback (maximum multiplier 9) would report 1. -/
theorem jackpot_fallback_counterexample :
    (track_jackpots [mult9Drop] "turbo").total_jackpots = 0 ∧
    (track_jackpots [mult9Drop] "medium").total_jackpots = 1 := by
  constructor
  · have h : (track_jackpots [mult9Drop] "turbo").total_jackpots =
        (jackpotIndices [mult9Drop]
          (pyMax ((PLINKO_SLOTS "turbo").getD highMults))).length := rfl
    rw [h, jackpotIndices_eq_nil]
    · rfl
    · intro d hd
      rw [List.mem_singleton] at hd
      subst hd
      rw [show (PLINKO_SLOTS "turbo").getD highMults = highMults from rfl,
        pyMax_highMults]
      norm_num [getMult, mult9Drop]
  · have h : (track_jackpots [mult9Drop] "medium").total_jackpots =
        (jackpotIndices [mult9Drop]
          (pyMax ((PLINKO_SLOTS "medium").getD highMults))).length := rfl
    have hcond : pyMax ((PLINKO_SLOTS "medium").getD highMults) ≤ getMult mult9Drop := by
      rw [show (PLINKO_SLOTS "medium").getD highMults = mediumMults from rfl,
        pyMax_mediumMults]
      norm_num [getMult, mult9Drop]
    rw [h]
    unfold jackpotIndices
    rw [show List.enum [mult9Drop] = [(0, mult9Drop)] from rfl]
    simp [decide_eq_true hcond]

theorem unknown_risk_fallback_witness :
    ("turbo" : String) ≠ "low" ∧ ("turbo" : String) ≠ "medium" ∧
    ("turbo" : String) ≠ "high" ∧
    (analyze_slot_distribution [mult9Drop] "turbo" =
      { analyze_slot_distribution [mult9Drop] "medium" with risk_level := "turbo" } ∧
    riskLevelComparison "turbo" [mult9Drop] =
      { riskLevelComparison "medium" [mult9Drop] with risk_level := "turbo" } ∧
    track_jackpots [mult9Drop] "turbo" = track_jackpots [mult9Drop] "high") :=
  ⟨by decide, by decide, by decide,
    unknown_risk_fallback "turbo" [mult9Drop] (by decide) (by decide) (by decide)⟩

lemma tier_counts_partition (ms : List ℚ) :
    ms.countP (fun m => decide (m < 1)) +
      ms.countP (fun m => decide (1 ≤ m ∧ m < 2)) +
      ms.countP (fun m => decide (2 ≤ m ∧ m < 10)) +
      ms.countP (fun m => decide (10 ≤ m)) = ms.length := by
  induction ms with
  | nil => simp
  | cons m t ih =>
    simp only [List.countP_cons, List.length_cons]
    rcases lt_or_le m 1 with h1 | h1
    · have c2 : ¬ (1 ≤ m ∧ m < 2) := by rintro ⟨h, -⟩; linarith
      have c3 : ¬ (2 ≤ m ∧ m < 10) := by rintro ⟨h, -⟩; linarith
      have c4 : ¬ (10 ≤ m) := by linarith
      rw [if_pos (by simpa using h1), if_neg (by simpa using c2),
        if_neg (by simpa using c3), if_neg (by simpa using c4)]
      omega
    · rcases lt_or_le m 2 with h2 | h2
      · have c1 : ¬ (m < 1) := by linarith
        have c3 : ¬ (2 ≤ m ∧ m < 10) := by rintro ⟨h, -⟩; linarith
        have c4 : ¬ (10 ≤ m) := by linarith
        rw [if_neg (by simpa using c1),
          if_pos (by simpa using (⟨h1, h2⟩ : 1 ≤ m ∧ m < 2)),
          if_neg (by simpa using c3), if_neg (by simpa using c4)]
        omega
      · rcases lt_or_le m 10 with h3 | h3
        · have c1 : ¬ (m < 1) := by linarith
          have c2 : ¬ (1 ≤ m ∧ m < 2) := by rintro ⟨-, h⟩; linarith
          have c4 : ¬ (10 ≤ m) := by linarith
          rw [if_neg (by simpa using c1), if_neg (by simpa using c2),
            if_pos (by simpa using (⟨h2, h3⟩ : 2 ≤ m ∧ m < 10)),
            if_neg (by simpa using c4)]
          omega
        · have c1 : ¬ (m < 1) := by linarith
          have c2 : ¬ (1 ≤ m ∧ m < 2) := by rintro ⟨-, h⟩; linarith
          have c3 : ¬ (2 ≤ m ∧ m < 10) := by rintro ⟨-, h⟩; linarith
          rw [if_neg (by simpa using c1), if_neg (by simpa using c2),
            if_neg (by simpa using c3), if_pos (by simpa using h3)]
          omega

/-- C6: for every risk level with a nonempty outcome list the four win
tiers are mutually exclusive and exhaustive, so the unrounded tier rates
sum to exactly 100; the reported fields are these rates rounded to 2
decimals, and `compare_risk_levels` emits exactly one entry per nonempty
risk level. -/
theorem tier_rates_sum (rl : String) (drops : List Drop) (h : drops ≠ []) :
    lossRate (multList drops) + smallWinRate (multList drops) +
      mediumWinRate (multList drops) + bigWinRate (multList drops) = 100 ∧
    (riskLevelComparison rl drops).loss_rate =
      pyRound (lossRate (multList drops)) 2 ∧
    (riskLevelComparison rl drops).small_win_rate =
      pyRound (smallWinRate (multList drops)) 2 ∧
    (riskLevelComparison rl drops).medium_win_rate =
      pyRound (mediumWinRate (multList drops)) 2 ∧
    (riskLevelComparison rl drops).big_win_rate =
      pyRound (bigWinRate (multList drops)) 2 ∧
    compare_risk_levels [(rl, drops)] = [riskLevelComparison rl drops] := by
  have hn : (multList drops).length ≠ 0 := by simp [multList, h]
  have hq : ((multList drops).length : ℚ) ≠ 0 := Nat.cast_ne_zero.mpr hn
  have hp := tier_counts_partition (multList drops)
  refine ⟨?_, rfl, rfl, rfl, rfl, ?_⟩
  · have key : (((multList drops).countP (fun m => decide (m < 1)) : ℚ)) +
        (((multList drops).countP (fun m => decide (1 ≤ m ∧ m < 2)) : ℚ)) +
        (((multList drops).countP (fun m => decide (2 ≤ m ∧ m < 10)) : ℚ)) +
        (((multList drops).countP (fun m => decide (10 ≤ m)) : ℚ)) =
        ((multList drops).length : ℚ) := by exact_mod_cast hp
    unfold lossRate smallWinRate mediumWinRate bigWinRate
    rw [div_mul_eq_mul_div, div_mul_eq_mul_div, div_mul_eq_mul_div,
      div_mul_eq_mul_div, div_add_div_same, div_add_div_same, div_add_div_same,
      div_eq_iff hq]
    linarith [key]
  · simp [compare_risk_levels, h]

theorem tier_rates_sum_witness :
    c6drops ≠ [] ∧
    lossRate (multList c6drops) = 25 ∧
    smallWinRate (multList c6drops) = 25 ∧
    mediumWinRate (multList c6drops) = 25 ∧
    bigWinRate (multList c6drops) = 25 ∧
    (lossRate (multList c6drops) + smallWinRate (multList c6drops) +
      mediumWinRate (multList c6drops) + bigWinRate (multList c6drops) = 100) :=
  ⟨by simp [c6drops],
   by norm_num [lossRate, multList, c6drops, getMult, List.countP_cons],
   by norm_num [smallWinRate, multList, c6drops, getMult, List.countP_cons],
   by norm_num [mediumWinRate, multList, c6drops, getMult, List.countP_cons],
   by norm_num [bigWinRate, multList, c6drops, getMult, List.countP_cons],
   (tier_rates_sum "medium" c6drops (by simp [c6drops])).1⟩

lemma length_filter_enumFrom (m : ℚ) :
    ∀ (n : ℕ) (l : List Drop),
      ((List.enumFrom n l).filter (fun q => decide (m ≤ getMult q.2))).length =
        l.countP (fun d => decide (m ≤ getMult d)) := by
  intro n l
  induction l generalizing n with
  | nil => simp
  | cons d t ih =>
    rw [List.enumFrom_cons, List.filter_cons, List.countP_cons]
    by_cases h : m ≤ getMult d
    · simp [h, ih]
    · simp [h, ih]

lemma headD_filter_enumFrom (m : ℚ) :
    ∀ (n : ℕ) (l : List Drop),
      ((((List.enumFrom n l).filter
          (fun q => decide (m ≤ getMult q.2))).map Prod.fst).headD (n + l.length)) =
        n + l.findIdx (fun d => decide (m ≤ getMult d)) := by
  intro n l
  induction l generalizing n with
  | nil => simp
  | cons d t ih =>
    rw [List.enumFrom_cons, List.filter_cons]
    by_cases h : m ≤ getMult d
    · simp [h, List.findIdx_cons]
    · have h2 := ih (n + 1)
      have hb : decide (m ≤ getMult d) = false := by simpa using h
      rw [if_neg (by simpa using h), List.findIdx_cons, hb, Bool.cond_false,
        List.length_cons,
        show n + (t.length + 1) = (n + 1) + t.length by omega, h2]
      omega

lemma total_eq_countP (drops : List Drop) (m : ℚ) :
    (jackpotIndices drops m).length =
      drops.countP (fun d => decide (m ≤ getMult d)) := by
  have := length_filter_enumFrom m 0 drops
  simpa [jackpotIndices, List.enum] using this

lemma drops_since_eq_findIdx (drops : List Drop) (m : ℚ) :
    (jackpotIndices drops m).headD drops.length =
      drops.findIdx (fun d => decide (m ≤ getMult d)) := by
  have := headD_filter_enumFrom m 0 drops
  simpa [jackpotIndices, List.enum] using this

/-- C7: `total_jackpots` counts the outcomes whose multiplier reaches the
configured maximum, and `drops_since_jackpot` is the least such position
when one exists and the window length otherwise. -/
theorem jackpot_detection_spec (drops : List Drop) (rl : String) :
    (track_jackpots drops rl).total_jackpots =
      drops.countP
        (fun d => decide (pyMax ((PLINKO_SLOTS rl).getD highMults) ≤ getMult d)) ∧
    ((∀ d ∈ drops, ¬ pyMax ((PLINKO_SLOTS rl).getD highMults) ≤ getMult d) →
      (track_jackpots drops rl).drops_since_jackpot = drops.length) ∧
    (∀ i : ℕ, i < drops.length →
      pyMax ((PLINKO_SLOTS rl).getD highMults) ≤ getMult (drops.getD i default) →
      (track_jackpots drops rl).drops_since_jackpot ≤ i ∧
      (track_jackpots drops rl).drops_since_jackpot < drops.length ∧
      pyMax ((PLINKO_SLOTS rl).getD highMults) ≤
        getMult (drops.getD ((track_jackpots drops rl).drops_since_jackpot) default)) := by
  have htot : (track_jackpots drops rl).total_jackpots =
      (jackpotIndices drops (pyMax ((PLINKO_SLOTS rl).getD highMults))).length := rfl
  have hsince : (track_jackpots drops rl).drops_since_jackpot =
      (jackpotIndices drops
        (pyMax ((PLINKO_SLOTS rl).getD highMults))).headD drops.length := rfl
  refine ⟨?_, ?_, ?_⟩
  · rw [htot, total_eq_countP]
  · intro hnone
    rw [hsince, drops_since_eq_findIdx]
    apply List.findIdx_eq_length_of_false
    intro x hx
    simpa using hnone x hx
  · intro i hi hpi
    rw [hsince, drops_since_eq_findIdx]
    have hget : drops.getD i default = drops[i] := by
      simp [List.getD_eq_getElem?_getD, List.getElem?_eq_getElem hi]
    rw [hget] at hpi
    have hex : ∃ x ∈ drops,
        (fun d => decide (pyMax ((PLINKO_SLOTS rl).getD highMults) ≤ getMult d)) x :=
      ⟨drops[i], List.getElem_mem hi, by simpa using hpi⟩
    have hfound := List.findIdx_lt_length_of_exists hex
    refine ⟨?_, hfound, ?_⟩
    · by_contra hlt
      push_neg at hlt
      have := List.not_of_lt_findIdx hlt
      simp_all
    · have := List.findIdx_getElem (p :=
        fun d => decide (pyMax ((PLINKO_SLOTS rl).getD highMults) ≤ getMult d))
        (w := hfound)
      have hget2 : drops.getD
          (drops.findIdx
            (fun d => decide (pyMax ((PLINKO_SLOTS rl).getD highMults) ≤ getMult d)))
          default =
          drops[drops.findIdx
            (fun d => decide (pyMax ((PLINKO_SLOTS rl).getD highMults) ≤ getMult d))] := by
        simp [List.getD_eq_getElem?_getD, List.getElem?_eq_getElem hfound]
      rw [hget2]
      simpa using this

theorem jackpot_detection_spec_witness :
    (track_jackpots c7drops "high").total_jackpots =
      c7drops.countP
        (fun d => decide (pyMax ((PLINKO_SLOTS "high").getD highMults) ≤ getMult d)) ∧
    ((∀ d ∈ c7drops, ¬ pyMax ((PLINKO_SLOTS "high").getD highMults) ≤ getMult d) →
      (track_jackpots c7drops "high").drops_since_jackpot = c7drops.length) ∧
    (∀ i : ℕ, i < c7drops.length →
      pyMax ((PLINKO_SLOTS "high").getD highMults) ≤ getMult (c7drops.getD i default) →
      (track_jackpots c7drops "high").drops_since_jackpot ≤ i ∧
      (track_jackpots c7drops "high").drops_since_jackpot < c7drops.length ∧
      pyMax ((PLINKO_SLOTS "high").getD highMults) ≤
        getMult (c7drops.getD ((track_jackpots c7drops "high").drops_since_jackpot) default)) :=
  jackpot_detection_spec c7drops "high"

lemma le_fst_of_mem_enumFrom {α : Type} {x : ℕ × α} :
    ∀ {n : ℕ} {l : List α}, x ∈ List.enumFrom n l → n ≤ x.1 := by
  intro n l
  induction l generalizing n with
  | nil => intro h; simp at h
  | cons a t ih =>
    intro h
    rw [List.enumFrom_cons] at h
    rcases List.mem_cons.mp h with rfl | h
    · simp
    · exact le_trans (by omega) (ih h)

lemma pairwise_lt_enumFrom {α : Type} :
    ∀ (n : ℕ) (l : List α),
      (List.enumFrom n l).Pairwise (fun a b => a.1 < b.1) := by
  intro n l
  induction l generalizing n with
  | nil => simp
  | cons a t ih =>
    rw [List.enumFrom_cons, List.pairwise_cons]
    exact ⟨fun q hq => lt_of_lt_of_le (by omega) (le_fst_of_mem_enumFrom hq),
      ih (n + 1)⟩

lemma jackpotIndices_sorted (drops : List Drop) (m : ℚ) :
    (jackpotIndices drops m).Pairwise (· < ·) := by
  unfold jackpotIndices
  rw [List.pairwise_map]
  exact List.Pairwise.sublist (List.filter_sublist _)
    (pairwise_lt_enumFrom 0 drops)

lemma gaps_le_neg_one {idx : List ℕ} (hs : idx.Pairwise (· < ·)) :
    ∀ g ∈ jackpotGaps idx, g ≤ -1 := by
  intro g hg
  simp only [jackpotGaps, List.mem_map, List.mem_range] at hg
  obtain ⟨i, hi, rfl⟩ := hg
  have h1 : i < idx.length := by omega
  have h2 : i + 1 < idx.length := by omega
  have hlt : idx[i] < idx[i + 1] :=
    List.pairwise_iff_getElem.mp hs i (i + 1) h1 h2 (by omega)
  have e1 : idx.getD i 0 = idx[i] := by
    simp [List.getD_eq_getElem?_getD, List.getElem?_eq_getElem h1]
  have e2 : idx.getD (i + 1) 0 = idx[i + 1] := by
    simp [List.getD_eq_getElem?_getD, List.getElem?_eq_getElem h2]
  rw [e1, e2]
  have hc : ((idx[i] : ℚ)) + 1 ≤ ((idx[i + 1] : ℚ)) := by exact_mod_cast hlt
  linarith

lemma mean_le_neg_one {l : List ℚ} (hne : l ≠ []) (h : ∀ g ∈ l, g ≤ -1) :
    pyMean l ≤ -1 := by
  have hlen : 0 < l.length := List.length_pos.mpr hne
  have hsum : l.sum ≤ l.length • (-1 : ℚ) := List.sum_le_card_nsmul l (-1) h
  rw [nsmul_eq_mul] at hsum
  rw [pyMean, div_le_iff₀ (by exact_mod_cast hlen)]
  linarith

lemma pyRound1_neg {a : ℚ} (h : a ≤ -1) : pyRound a 1 < 0 := by
  have hx : a * 10 ^ 1 ≤ -10 := by rw [pow_one]; linarith
  have hneg : pyRoundInt (a * 10 ^ 1) < 0 := by
    unfold pyRoundInt
    have hfl : ⌊a * 10 ^ 1⌋ ≤ -10 := by
      have := Int.floor_le_floor (α := ℚ) hx
      simpa using this
    split
    · split
      · omega
      · omega
    · have h2 : ⌊a * 10 ^ 1 + 1 / 2⌋ ≤ ⌊(-19 / 2 : ℚ)⌋ :=
        Int.floor_le_floor (by linarith)
      have h3 : ⌊(-19 / 2 : ℚ)⌋ = -10 := by
        rw [Int.floor_eq_iff]
        norm_num
      omega
  unfold pyRound
  have hcast : ((pyRoundInt (a * 10 ^ 1) : ℚ)) < 0 := by exact_mod_cast hneg
  exact div_neg_of_neg_of_pos hcast (by norm_num)

/-- C9 (amended): with at least two jackpots, `average_drops_between` is
present and equals the mean of the signed consecutive gaps
`jackpot_indices[i] - jackpot_indices[i+1]` ROUNDED TO ONE DECIMAL; since
the indices strictly increase in input order the mean is at most -1, and
the stored value is strictly negative as well — the implementation keeps
the signed gap rather than correcting it to a positive one. -/
theorem avg_gap_signed (drops : List Drop) (rl : String)
    (h : 2 ≤ (track_jackpots drops rl).total_jackpots) :
    pyMean (jackpotGaps (jackpotIndices drops
        (pyMax ((PLINKO_SLOTS rl).getD highMults)))) ≤ -1 ∧
    (track_jackpots drops rl).average_drops_between =
      some (pyRound (pyMean (jackpotGaps (jackpotIndices drops
        (pyMax ((PLINKO_SLOTS rl).getD highMults))))) 1) ∧
    pyRound (pyMean (jackpotGaps (jackpotIndices drops
        (pyMax ((PLINKO_SLOTS rl).getD highMults))))) 1 < 0 := by
  have hlen : 2 ≤ (jackpotIndices drops
      (pyMax ((PLINKO_SLOTS rl).getD highMults))).length := h
  have hgl : (jackpotGaps (jackpotIndices drops
      (pyMax ((PLINKO_SLOTS rl).getD highMults)))).length =
      (jackpotIndices drops (pyMax ((PLINKO_SLOTS rl).getD highMults))).length
        - 1 := by
    simp [jackpotGaps]
  have hgne : jackpotGaps (jackpotIndices drops
      (pyMax ((PLINKO_SLOTS rl).getD highMults))) ≠ [] := by
    intro h0
    rw [h0] at hgl
    simp at hgl
    omega
  have hneg : pyMean (jackpotGaps (jackpotIndices drops
      (pyMax ((PLINKO_SLOTS rl).getD highMults)))) ≤ -1 :=
    mean_le_neg_one hgne (gaps_le_neg_one (jackpotIndices_sorted drops _))
  have hne0 : pyMean (jackpotGaps (jackpotIndices drops
      (pyMax ((PLINKO_SLOTS rl).getD highMults)))) ≠ 0 := by
    intro h0
    rw [h0] at hneg
    norm_num at hneg
  have hfield : (track_jackpots drops rl).average_drops_between =
      match (if 1 < (jackpotIndices drops
            (pyMax ((PLINKO_SLOTS rl).getD highMults))).length then
          some (pyMean (jackpotGaps (jackpotIndices drops
            (pyMax ((PLINKO_SLOTS rl).getD highMults))))) else none) with
      | none => none
      | some a => if a = 0 then none else some (pyRound a 1) := rfl
  refine ⟨hneg, ?_, pyRound1_neg hneg⟩
  rw [hfield, if_pos (by omega)]
  simp [hne0]

lemma pyRound_neg_five_thirds : pyRound (-5 / 3 : ℚ) 1 = -17 / 10 := by
  have hf : ⌊(-5 / 3 : ℚ) * 10 ^ 1⌋ = -17 := by
    rw [Int.floor_eq_iff]
    norm_num
  rw [pyRound, pyRoundInt, if_neg (by rw [hf]; norm_num),
    show ((-5 / 3 : ℚ) * 10 ^ 1 + 1 / 2 : ℚ) = -97 / 6 by norm_num,
    show ⌊(-97 / 6 : ℚ)⌋ = -17 by rw [Int.floor_eq_iff]; norm_num]
  norm_num

lemma jackpotIndices_c9 :
    jackpotIndices c9drops
      (pyMax ((PLINKO_SLOTS "high").getD highMults)) = [0, 1, 2, 5] := by
  have hmm : pyMax ((PLINKO_SLOTS "high").getD highMults) = 110 := by
    rw [show (PLINKO_SLOTS "high").getD highMults = highMults from rfl,
      pyMax_highMults]
  have e0 : getMult { multiplier := some (110 : ℚ) } = 110 := rfl
  have e1 : getMult { multiplier := some (1 : ℚ) } = 1 := rfl
  have dT : decide ((110 : ℚ) ≤ 110) = true := decide_eq_true (le_refl _)
  have dF : decide ((110 : ℚ) ≤ 1) = false := decide_eq_false (by norm_num)
  unfold jackpotIndices c9drops
  simp [hmm, e0, e1, dT, dF, List.enum_cons, List.enumFrom_cons,
    List.enumFrom_nil, List.filter_cons, List.filter_nil]

/-- C9 (counterexample): with jackpots at positions 0, 1, 2 and 5 the mean
gap is -5/3, but the stored `average_drops_between` is the rounded value
-1.7, so the field does not equal the mean of the consecutive gaps. -/
theorem avg_gap_rounding_counterexample :
    (track_jackpots c9drops "high").total_jackpots = 4 ∧
    pyMean (jackpotGaps (jackpotIndices c9drops
      (pyMax ((PLINKO_SLOTS "high").getD highMults)))) = -5 / 3 ∧
    (track_jackpots c9drops "high").average_drops_between = some (-17 / 10) ∧
((-17 / 10 : ℚ) ≠ -5 / 3) := by
  have hidx := jackpotIndices_c9
  have hmean : pyMean (jackpotGaps (jackpotIndices c9drops
      (pyMax ((PLINKO_SLOTS "high").getD highMults)))) = -5 / 3 := by
    rw [hidx]
    norm_num [jackpotGaps, pyMean, List.range_succ, List.getD]
  refine ⟨?_, hmean, ?_, by norm_num⟩
  · have htot : (track_jackpots c9drops "high").total_jackpots =
        (jackpotIndices c9drops
          (pyMax ((PLINKO_SLOTS "high").getD highMults))).length := rfl
    rw [htot, hidx]
    rfl
  · have hfield : (track_jackpots c9drops "high").average_drops_between =
        match (if 1 < (jackpotIndices c9drops
              (pyMax ((PLINKO_SLOTS "high").getD highMults))).length then
            some (pyMean (jackpotGaps (jackpotIndices c9drops
              (pyMax ((PLINKO_SLOTS "high").getD highMults))))) else none) with
        | none => none
        | some a => if a = 0 then none else some (pyRound a 1) := rfl
    rw [hfield, if_pos (by rw [hidx]; norm_num)]
    simp only [hmean]
    rw [if_neg (by norm_num), pyRound_neg_five_thirds]

theorem avg_gap_signed_witness :
    2 ≤ (track_jackpots c9drops "high").total_jackpots ∧
    (pyMean (jackpotGaps (jackpotIndices c9drops
        (pyMax ((PLINKO_SLOTS "high").getD highMults)))) ≤ -1 ∧
    (track_jackpots c9drops "high").average_drops_between =
      some (pyRound (pyMean (jackpotGaps (jackpotIndices c9drops
        (pyMax ((PLINKO_SLOTS "high").getD highMults))))) 1) ∧
    pyRound (pyMean (jackpotGaps (jackpotIndices c9drops
        (pyMax ((PLINKO_SLOTS "high").getD highMults))))) 1 < 0) := by
  have h2 : 2 ≤ (track_jackpots c9drops "high").total_jackpots := by
    have htot : (track_jackpots c9drops "high").total_jackpots =
        (jackpotIndices c9drops
          (pyMax ((PLINKO_SLOTS "high").getD highMults))).length := rfl
    rw [htot, jackpotIndices_c9]
    norm_num
  exact ⟨h2, avg_gap_signed c9drops "high" h2⟩

/-- C10: for EVERY record, two independent defaults: a record missing both
slot keys (whatever its multiplier) is treated as landing in slot 7 and so
counts in the histogram, the center slots and the jackpot slots; and a
record missing the multiplier (whatever its slot keys) contributes
multiplier 1.0 to the multiplier list.  Both embedded functions are total,
so no missing field raises. -/
theorem missing_fields_default (d : Drop) (t : List Drop) :
    (d.slot = none → d.landing_slot = none →
      getSlot d = 7 ∧
      slotCounts (d :: t) 7 = slotCounts t 7 + 1 ∧
      (∀ i : ℕ, i ≠ 7 → slotCounts (d :: t) i = slotCounts t i) ∧
      centerCount (d :: t) = centerCount t + 1 ∧
      jackpotCount (d :: t) = jackpotCount t + 1) ∧
    (d.multiplier = none →
      getMult d = 1 ∧ multList (d :: t) = 1 :: multList t) := by
  constructor
  · intro h1 h2
    have hs : getSlot d = 7 := by simp [getSlot, h1, h2]
    have hc7 : slotCounts (d :: t) 7 = slotCounts t 7 + 1 := by
      rw [slotCounts, List.countP_cons, if_pos (by simp [slotInRange, hs])]
      rfl
    have hcne : ∀ i : ℕ, i ≠ 7 → slotCounts (d :: t) i = slotCounts t i := by
      intro i hi
      have hcond : ¬ (decide (slotInRange d ∧ getSlot d = (i : ℤ)) = true) := by
        simp [slotInRange, hs]
        omega
      rw [slotCounts, List.countP_cons, if_neg hcond, Nat.add_zero]
      rfl
    refine ⟨hs, hc7, hcne, ?_, ?_⟩
    · simp only [centerCount, List.map_cons, List.map_nil, List.sum_cons,
        List.sum_nil, hc7, hcne 6 (by omega), hcne 8 (by omega),
        hcne 9 (by omega)]
      omega
    · simp only [jackpotCount, hc7, hcne 8 (by omega)]
      omega
  · intro h3
    have hm : getMult d = 1 := by norm_num [getMult, h3]
    exact ⟨hm, by simp [multList, hm]⟩

theorem missing_fields_default_witness :
    (({ multiplier := some 2 } : Drop).slot = none) ∧
    (({ multiplier := some 2 } : Drop).landing_slot = none) ∧
    (({ slot := some 3 } : Drop).multiplier = none) ∧
    (getSlot { multiplier := some 2 } = 7 ∧
    slotCounts (({ multiplier := some 2 } : Drop) :: ([] : List Drop)) 7 =
      slotCounts ([] : List Drop) 7 + 1 ∧
    (∀ i : ℕ, i ≠ 7 →
      slotCounts (({ multiplier := some 2 } : Drop) :: ([] : List Drop)) i =
        slotCounts ([] : List Drop) i) ∧
    centerCount (({ multiplier := some 2 } : Drop) :: ([] : List Drop)) =
      centerCount ([] : List Drop) + 1 ∧
    jackpotCount (({ multiplier := some 2 } : Drop) :: ([] : List Drop)) =
      jackpotCount ([] : List Drop) + 1) ∧
    (getMult { slot := some 3 } = 1 ∧
    multList (({ slot := some 3 } : Drop) :: ([] : List Drop)) =
      1 :: multList ([] : List Drop)) :=
  ⟨rfl, rfl, rfl,
    (missing_fields_default { multiplier := some 2 } []).1 rfl rfl,
    (missing_fields_default { slot := some 3 } []).2 rfl⟩

lemma pair_sublist_range {a b n : ℕ} (hab : a < b) (hbn : b < n) :
    [a, b] <+ List.range n := by
  induction n with
  | zero => omega
  | succ n ih =>
    rw [List.range_succ]
    rcases Nat.lt_or_ge b n with hc | hc
    · exact (ih hc).trans (List.sublist_append_left _ _)
    · have hb : b = n := by omega
      rw [hb]
      exact List.Sublist.append
        (List.singleton_sublist.mpr (List.mem_range.mpr (hb ▸ hab)))
        (List.Sublist.refl [n])

lemma pair_sublist_cons_mem {α : Type} {x y : α} {t : List α}
    (h : [x, y] <+ y :: t) : y ∈ t := by
  cases h with
  | cons _ h2 => exact h2.subset (by simp)
  | cons₂ _ h2 => exact h2.subset (by simp)

lemma countDescLE_trans :
    ∀ (a b c : ℕ × ℕ), countDescLE a b → countDescLE b c → countDescLE a c := by
  intro a b c h1 h2
  simp only [countDescLE, decide_eq_true_eq] at *
  omega

lemma countDescLE_total :
    ∀ (a b : ℕ × ℕ), countDescLE a b || countDescLE b a := by
  intro a b
  simp only [countDescLE, Bool.or_eq_true, decide_eq_true_eq]
  omega

lemma slotItems_nodup (drops : List Drop) : (slotItems drops).Nodup := by
  unfold slotItems
  exact List.Nodup.map (fun a b hab => by simpa using congrArg Prod.fst hab)
    (List.nodup_range 16)

lemma mem_slotItems {drops : List Drop} {x : ℕ × ℕ} :
    x ∈ slotItems drops ↔ x.1 < 16 ∧ x.2 = slotCounts drops x.1 := by
  unfold slotItems
  simp only [List.mem_map, List.mem_range]
  constructor
  · rintro ⟨i, hi, rfl⟩
    exact ⟨hi, rfl⟩
  · rintro ⟨h1, h2⟩
    exact ⟨x.1, h1, by rw [← h2]⟩

lemma sortedSlots_perm (drops : List Drop) :
    sortedSlots drops ~ slotItems drops := List.mergeSort_perm _ _

lemma sortedSlots_length (drops : List Drop) :
    (sortedSlots drops).length = 16 := by
  rw [(sortedSlots_perm drops).length_eq]
  simp [slotItems]

lemma sortedSlots_ne_nil (drops : List Drop) : sortedSlots drops ≠ [] := by
  intro h0
  have hlen := sortedSlots_length drops
  rw [h0] at hlen
  simp at hlen

lemma sortedSlots_pairwise (drops : List Drop) :
    (sortedSlots drops).Pairwise (fun a b => countDescLE a b) :=
  List.sorted_mergeSort countDescLE_trans countDescLE_total _

lemma sortedSlots_nodup (drops : List Drop) : (sortedSlots drops).Nodup :=
  ((sortedSlots_perm drops).nodup_iff).mpr (slotItems_nodup drops)

/-- Stability of the descending sort: a pair of slots in increasing index
order whose counts do not increase stays in that order in the output. -/
lemma pair_sublist_sortedSlots (drops : List Drop) {j k : ℕ}
    (hjk : j < k) (hk : k < 16)
    (hcc : slotCounts drops k ≤ slotCounts drops j) :
    [(j, slotCounts drops j), (k, slotCounts drops k)] <+ sortedSlots drops := by
  have hsub : [(j, slotCounts drops j), (k, slotCounts drops k)] <+
      slotItems drops := by
    have hmap := List.Sublist.map (fun i => (i, slotCounts drops i))
      (pair_sublist_range hjk hk)
    simpa [slotItems] using hmap
  have hpair : List.Pairwise (fun a b => countDescLE a b)
      [(j, slotCounts drops j), (k, slotCounts drops k)] := by
    simp [countDescLE, hcc]
  exact List.sublist_mergeSort countDescLE_trans countDescLE_total hpair hsub

lemma mostHit_spec (drops : List Drop) :
    mostHit drops < 16 ∧
    (∀ j, j < 16 → slotCounts drops j ≤ slotCounts drops (mostHit drops)) ∧
    (∀ j, j < mostHit drops →
      slotCounts drops j < slotCounts drops (mostHit drops)) := by
  obtain ⟨s0, rest, hS⟩ := List.exists_cons_of_ne_nil (sortedSlots_ne_nil drops)
  have hmost : mostHit drops = s0.1 := by rw [mostHit, hS]; rfl
  have hs0mem : s0 ∈ slotItems drops :=
    (sortedSlots_perm drops).subset (by rw [hS]; exact List.mem_cons_self _ _)
  obtain ⟨hs01, hs02⟩ := mem_slotItems.mp hs0mem
  have hmax : ∀ j, j < 16 → slotCounts drops j ≤ s0.2 := by
    intro j hj
    have hjmem : ((j, slotCounts drops j) : ℕ × ℕ) ∈ sortedSlots drops :=
      ((sortedSlots_perm drops).mem_iff).mpr (mem_slotItems.mpr ⟨hj, rfl⟩)
    rw [hS] at hjmem
    rcases List.mem_cons.mp hjmem with he | hr
    · have h2 := congrArg Prod.snd he
      simp at h2
      omega
    · have hp := sortedSlots_pairwise drops
      rw [hS] at hp
      have h2 := (List.pairwise_cons.mp hp).1 _ hr
      simp only [countDescLE, decide_eq_true_eq] at h2
      exact h2
  refine ⟨?_, ?_, ?_⟩
  · rw [hmost]; exact hs01
  · intro j hj
    rw [hmost, ← hs02]
    exact hmax j hj
  · intro j hj
    rw [hmost] at hj
    have hj16 : j < 16 := lt_trans hj hs01
    rw [hmost, ← hs02]
    by_contra hcon
    push_neg at hcon
    have heq : slotCounts drops j = s0.2 := le_antisymm (hmax j hj16) hcon
    have hpairS := pair_sublist_sortedSlots drops hj hs01 (by omega)
    have hs0eq : ((s0.1, slotCounts drops s0.1) : ℕ × ℕ) = s0 := by
      rw [← hs02]
    rw [hs0eq, hS] at hpairS
    exact (List.nodup_cons.mp (hS ▸ sortedSlots_nodup drops)).1
      (pair_sublist_cons_mem hpairS)

lemma leastHit_spec (drops : List Drop) :
    leastHit drops < 16 ∧
    (∀ j, j < 16 → slotCounts drops (leastHit drops) ≤ slotCounts drops j) ∧
    (∀ j, j < 16 → leastHit drops < j →
      slotCounts drops (leastHit drops) < slotCounts drops j) := by
  have hrevne : (sortedSlots drops).reverse ≠ [] := by
    simp [sortedSlots_ne_nil drops]
  obtain ⟨g, rrest, hR⟩ := List.exists_cons_of_ne_nil hrevne
  have hleast : leastHit drops = g.1 := by
    rw [leastHit, List.getLastD_eq_getLast?, List.getLast?_eq_head?_reverse, hR]
    rfl
  have hgmem : g ∈ slotItems drops := by
    have hmem : g ∈ (sortedSlots drops).reverse := by
      rw [hR]; exact List.mem_cons_self _ _
    exact (sortedSlots_perm drops).subset (List.mem_reverse.mp hmem)
  obtain ⟨hg1, hg2⟩ := mem_slotItems.mp hgmem
  have hrevpair : ((sortedSlots drops).reverse).Pairwise
      (fun a b => countDescLE b a) := by
    rw [List.pairwise_reverse]
    exact sortedSlots_pairwise drops
  have hmin : ∀ j, j < 16 → g.2 ≤ slotCounts drops j := by
    intro j hj
    have hjmem : ((j, slotCounts drops j) : ℕ × ℕ) ∈ (sortedSlots drops).reverse := by
      rw [List.mem_reverse]
      exact ((sortedSlots_perm drops).mem_iff).mpr (mem_slotItems.mpr ⟨hj, rfl⟩)
    rw [hR] at hjmem
    rcases List.mem_cons.mp hjmem with he | hr
    · have h2 := congrArg Prod.snd he
      simp at h2
      omega
    · rw [hR] at hrevpair
      have h2 := (List.pairwise_cons.mp hrevpair).1 _ hr
      simp only [countDescLE, decide_eq_true_eq] at h2
      exact h2
  refine ⟨?_, ?_, ?_⟩
  · rw [hleast]; exact hg1
  · intro j hj
    rw [hleast, ← hg2]
    exact hmin j hj
  · intro j hj16 hj
    rw [hleast] at hj
    rw [hleast, ← hg2]
    by_contra hcon
    push_neg at hcon
    have heq : slotCounts drops j = g.2 := le_antisymm hcon (hmin j hj16)
    have hpairS := pair_sublist_sortedSlots drops hj hj16 (by omega)
    have hgeq : ((g.1, slotCounts drops g.1) : ℕ × ℕ) = g := by
      rw [← hg2]
    rw [hgeq] at hpairS
    have hrev2 : [(j, slotCounts drops j), g] <+ (sortedSlots drops).reverse := by
      simpa using hpairS.reverse
    rw [hR] at hrev2
    have hnd : ((sortedSlots drops).reverse).Nodup := by
      rw [List.nodup_reverse]
      exact sortedSlots_nodup drops
    rw [hR] at hnd
    exact (List.nodup_cons.mp hnd).1 (pair_sublist_cons_mem hrev2)

/-- C4: on a nonempty window `most_hit_slot` is the LOWEST slot index
among the slots of maximum hit count, and `least_hit_slot` is the HIGHEST
slot index among the slots of minimum hit count (stable descending sort,
first and last element). -/
theorem tie_break_spec (drops : List Drop) (rl : String) (h : drops ≠ []) :
    (analyze_slot_distribution drops rl).most_hit_slot < 16 ∧
    (∀ j, j < 16 → slotCounts drops j ≤
      slotCounts drops (analyze_slot_distribution drops rl).most_hit_slot) ∧
    (∀ j, j < (analyze_slot_distribution drops rl).most_hit_slot →
      slotCounts drops j <
        slotCounts drops (analyze_slot_distribution drops rl).most_hit_slot) ∧
    (analyze_slot_distribution drops rl).least_hit_slot < 16 ∧
    (∀ j, j < 16 →
      slotCounts drops (analyze_slot_distribution drops rl).least_hit_slot ≤
        slotCounts drops j) ∧
    (∀ j, j < 16 → (analyze_slot_distribution drops rl).least_hit_slot < j →
      slotCounts drops (analyze_slot_distribution drops rl).least_hit_slot <
        slotCounts drops j) := by
  have hm : (analyze_slot_distribution drops rl).most_hit_slot =
      mostHit drops := by
    simp [analyze_slot_distribution, h]
  have hl : (analyze_slot_distribution drops rl).least_hit_slot =
      leastHit drops := by
    simp [analyze_slot_distribution, h]
  rw [hm, hl]
  obtain ⟨a1, a2, a3⟩ := mostHit_spec drops
  obtain ⟨b1, b2, b3⟩ := leastHit_spec drops
  exact ⟨a1, a2, a3, b1, b2, b3⟩

theorem tie_break_spec_witness :
    c4drops ≠ [] ∧
    ((analyze_slot_distribution c4drops "low").most_hit_slot < 16 ∧
    (∀ j, j < 16 → slotCounts c4drops j ≤
      slotCounts c4drops (analyze_slot_distribution c4drops "low").most_hit_slot) ∧
    (∀ j, j < (analyze_slot_distribution c4drops "low").most_hit_slot →
      slotCounts c4drops j <
        slotCounts c4drops (analyze_slot_distribution c4drops "low").most_hit_slot) ∧
    (analyze_slot_distribution c4drops "low").least_hit_slot < 16 ∧
    (∀ j, j < 16 →
      slotCounts c4drops (analyze_slot_distribution c4drops "low").least_hit_slot ≤
        slotCounts c4drops j) ∧
    (∀ j, j < 16 → (analyze_slot_distribution c4drops "low").least_hit_slot < j →
      slotCounts c4drops (analyze_slot_distribution c4drops "low").least_hit_slot <
        slotCounts c4drops j)) :=
  ⟨by simp [c4drops], tie_break_spec c4drops "low" (by simp [c4drops])⟩

end Plinko
